import Mathlib

/-!
Shallow embedding of `src/jni/main.c` from rusty-cardboard: the lifecycle
command dispatcher `engine_handle_cmd` (lines 69-111) and the frame
scheduler loop of `android_main` (lines 118-192).

Modelling conventions.  The C `float angle` is modelled by an exact
rational (`ℚ`); `int32_t` by `Int`; nullable pointers (`window`,
`accelerometerSensor`, the EGL context handle) by `Bool` flags; the
host-owned `savedState` blob by `Option SavedState`.  The externally
implemented Rust calls `init_display`, `draw_frame` and `term_display`
are not in this repository's `src/`; their state effects are modelled
from the spec's contracts and every invocation of an external call is
recorded in an event trace (`Tr`) so that calling-discipline claims can
be stated about traces.
-/

/-- Embedding of `struct saved_state` (main.c lines 35-39):
`float angle; int32_t x; int32_t y;`.  The C `float` is modelled as an
exact rational. -/
structure SavedState where
  angle : ℚ
  x : Int
  y : Int
deriving DecidableEq

/-- Embedding of the parts of the host `struct android_app` that main.c
reads or writes: `window` (modelled as a presence flag for the nullable
`ANativeWindow*`), the `savedState` blob with its recorded
`savedStateSize`, and `destroyRequested`. -/
structure App where
  window : Bool
  savedState : Option SavedState
  savedStateSize : Nat
  destroyRequested : Bool
deriving DecidableEq

/-- Embedding of `struct engine` (main.c lines 44-58).  The back
pointer `app` is passed separately; `accelerometerSensor != NULL` is
the flag `hasSensor`; the EGL `display/surface/context` handles are
collapsed into the single flag `hasContext` (non-null context handle);
the enable state and event rate of the sensor queue, and the number of
queued sensor events, model the externally owned
`ASensorEventQueue`. -/
structure Engine where
  hasSensor : Bool
  sensorEnabled : Bool
  sensorRate : Option Int
  sensorQueue : Nat
  animating : Bool
  hasContext : Bool
  width : Int
  height : Int
  state : SavedState
deriving DecidableEq

/-- Lifecycle commands dispatched by `engine_handle_cmd`'s switch:
`APP_CMD_SAVE_STATE`, `APP_CMD_INIT_WINDOW`, `APP_CMD_TERM_WINDOW`,
`APP_CMD_GAINED_FOCUS`, `APP_CMD_LOST_FOCUS`; `destroy` is
`APP_CMD_DESTROY` (not in the switch, but the host glue sets
`destroyRequested` when delivering it); `other` covers the remaining
command values the switch ignores. -/
inductive Cmd where
  | saveState
  | initWindow
  | termWindow
  | gainedFocus
  | lostFocus
  | destroy
  | other (code : Int)
deriving DecidableEq

/-- Trace events: one entry per external call made by main.c, plus one
per `ALooper_pollAll` invocation.  `pollEv a t` records the value of
`engine.animating` at the poll together with the timeout argument
actually passed; `initD ok` is a call to `init_display` and the success
of that call; `draw` is `draw_frame`; `term` is `term_display`;
`getEv k` is one `ASensorEventQueue_getEvents(queue, &event, 1)` call
that returned `k` events. -/
inductive Tr where
  | pollEv (animating : Bool) (timeout : Int)
  | initD (ok : Bool)
  | draw
  | term
  | getEv (got : Nat)
deriving DecidableEq

/-- Size in bytes of `struct saved_state` under the C ABI used here:
`float` (4) + `int32_t` (4) + `int32_t` (4), no padding.  This is the
`sizeof(struct saved_state)` written to `savedStateSize` in main.c
line 76. -/
def savedStateSizeof : Nat := 4 + 4 + 4

/-- Embedding of the sensor event rate expression of main.c line 96:
`(1000L/60)*1000`, computed with C integer (truncating) division, which
Lean's `Int` division matches on these positive operands. -/
def eventRate : Int := (1000 / 60) * 1000

/-- Embedding of the timeout argument of main.c line 155:
`engine.animating ? 0 : -1` (for `ALooper_pollAll`, `0` is
non-blocking and a negative timeout blocks indefinitely). -/
def loopTimeout (e : Engine) : Int :=
  if e.animating then 0 else -1

/-- Embedding of the per-frame angle update of main.c lines 182-185:
`engine.state.angle += .01f; if (engine.state.angle > 1)
engine.state.angle = 0;`. -/
def advanceAngle (a : ℚ) : ℚ :=
  if a + 1 / 100 > 1 then 0 else a + 1 / 100

/-- Modelled from the spec: `init_display` is implemented in Rust and
absent from `src/`; per the spec's Rendering Context Manager contract
it returns a status (0 on success, nonzero on failure), and on success
acquires the GPU context (so the context handle becomes non-null) while
on failure it leaves no active context.  The success of the external
call is an input `ok`; the surface dimensions it records are not
modelled because no claim mentions them. -/
def init_display (e : Engine) (ok : Bool) : Engine :=
  if ok then { e with hasContext := true } else e

/-- Modelled from the spec: `term_display` is implemented in Rust and
absent from `src/`; per the spec it releases the context and clears the
handle, and is safe to call when no context exists. -/
def term_display (e : Engine) : Engine :=
  { e with hasContext := false }

/-- Result of one command dispatch: the updated host state, the updated
engine, and the trace of external calls made. -/
structure CmdResult where
  app : App
  engine : Engine
  calls : List Tr
deriving DecidableEq

/-- Embedding of `engine_handle_cmd` (main.c lines 69-111).
`SAVE_STATE`: copy the whole `saved_state` struct into a freshly
allocated host buffer and record `sizeof(struct saved_state)`.
`INIT_WINDOW`: only if the window handle is non-null, call
`init_display` and then `draw_frame` (the return value of
`init_display` is ignored by the C code, so the draw is unconditional).
`TERM_WINDOW`: call `term_display`.  `GAINED_FOCUS`: if the sensor
descriptor is non-null, enable it and set its event rate to
`(1000L/60)*1000`.  `LOST_FOCUS`: if the sensor descriptor is non-null,
disable it; then set `animating = 0` and call `draw_frame`.  All other
command values fall through the switch. -/
def engine_handle_cmd (app : App) (e : Engine) (c : Cmd) (ok : Bool) :
    CmdResult :=
  match c with
  | .saveState =>
      ⟨{ app with savedState := some e.state,
                  savedStateSize := savedStateSizeof }, e, []⟩
  | .initWindow =>
      if app.window then
        ⟨app, init_display e ok, [Tr.initD ok, Tr.draw]⟩
      else
        ⟨app, e, []⟩
  | .termWindow =>
      ⟨app, term_display e, [Tr.term]⟩
  | .gainedFocus =>
      if e.hasSensor then
        ⟨app, { e with sensorEnabled := true,
                       sensorRate := some eventRate }, []⟩
      else
        ⟨app, e, []⟩
  | .lostFocus =>
      let e1 := if e.hasSensor then { e with sensorEnabled := false } else e
      ⟨app, { e1 with animating := false }, [Tr.draw]⟩
  | _ => ⟨app, e, []⟩

/-- Embedding of the sensor drain loop of main.c lines 167-169:
`while (ASensorEventQueue_getEvents(engine.sensorEventQueue, &event, 1)
> 0) {}` run on a queue currently holding `n` events.  Each call
fetches at most one event; the call that returns `0` ends the loop.
Returns the remaining queue length and the trace of `getEvents`
calls. -/
def drainQueue : Nat → Nat × List Tr
  | 0 => (0, [Tr.getEv 0])
  | n + 1 =>
      let r := drainQueue n
      (r.1, Tr.getEv 1 :: r.2)

/-- One readiness delivery from `ALooper_pollAll` (one iteration of the
inner while loop of main.c lines 155-177): a command source being ready
(`cmdEv c ok`, where `ok` is the success of any `init_display` call the
handler makes), an input source being ready (processed by the external
`handle_input`, which touches no engine state), or the sensor queue
being ready (`ident == LOOPER_ID_USER`, registered with a NULL source,
delivering `n` freshly queued events). -/
inductive Ev where
  | cmdEv (c : Cmd) (ok : Bool)
  | inputEv
  | sensorEv (n : Nat)
deriving DecidableEq

/-- Processing of one ready source inside the inner poll loop (main.c
lines 158-171): a non-null source is dispatched through
`source->process`, which for the command source lets the host glue set
`destroyRequested` on `APP_CMD_DESTROY` and then calls
`engine_handle_cmd`; for the sensor ident, if the sensor descriptor is
non-null the queue is drained one event at a time. -/
def processEv (app : App) (e : Engine) : Ev → CmdResult
  | .cmdEv c ok =>
      let app1 := if c = Cmd.destroy then
        { app with destroyRequested := true } else app
      engine_handle_cmd app1 e c ok
  | .inputEv => ⟨app, e, []⟩
  | .sensorEv n =>
      if e.hasSensor then
        let d := drainQueue (e.sensorQueue + n)
        ⟨app, { e with sensorQueue := d.1 }, d.2⟩
      else
        ⟨app, { e with sensorQueue := e.sensorQueue + n }, []⟩

/-- Result of a (partial) run of the `android_main` loop: final host
state, final engine, trace of polls and external calls, and whether the
loop returned through the destroy branch of main.c lines 174-177. -/
structure RunResult where
  app : App
  engine : Engine
  trace : List Tr
  destroyed : Bool
deriving DecidableEq

/-- Embedding of the inner event loop of main.c lines 155-178: each
scheduled `Ev` is one `ALooper_pollAll` return with `ident >= 0`; after
the schedule is exhausted one final poll returns a negative value and
the loop exits.  Every poll records the `animating` flag and the
timeout argument `engine.animating ? 0 : -1`.  After processing each
source, `destroyRequested` is checked; if set, `term_display` is called
and the whole run returns. -/
def innerLoop : List Ev → App → Engine → RunResult
  | [], app, e =>
      ⟨app, e, [Tr.pollEv e.animating (loopTimeout e)], false⟩
  | ev :: rest, app, e =>
      let p := Tr.pollEv e.animating (loopTimeout e)
      let r1 := processEv app e ev
      if r1.app.destroyRequested then
        ⟨r1.app, term_display r1.engine, p :: r1.calls ++ [Tr.term], true⟩
      else
        let r2 := innerLoop rest r1.app r1.engine
        ⟨r2.app, r2.engine, p :: r1.calls ++ r2.trace, r2.destroyed⟩

/-- Embedding of the animation step of main.c lines 180-190: if
`animating`, advance the angle and call `draw_frame`. -/
def animStep (e : Engine) : Engine × List Tr :=
  if e.animating then
    ({ e with state := { e.state with angle := advanceAngle e.state.angle } },
     [Tr.draw])
  else
    (e, [])

/-- Embedding of the outer `while (1)` loop of main.c lines 146-191,
unrolled along a finite schedule: element `k` of the schedule lists the
ready sources delivered by the polls of outer iteration `k`.  An empty
schedule suffix means the run is observed only this far (the real loop
would keep polling). -/
def run : List (List Ev) → App → Engine → RunResult
  | [], app, e => ⟨app, e, [], false⟩
  | evs :: rest, app, e =>
      let r1 := innerLoop evs app e
      if r1.destroyed then r1
      else
        let a := animStep r1.engine
        let r2 := run rest r1.app a.1
        ⟨r2.app, r2.engine, r1.trace ++ a.2 ++ r2.trace, r2.destroyed⟩

/-- Embedding of the engine construction in `android_main` (main.c
lines 126-142): `memset(&engine, 0, sizeof(engine))` zeroes every
field, the accelerometer presence flag is recorded, and if the host
supplied a saved-state blob the whole `saved_state` struct is copied
back in. -/
def initEngine (hasSensor : Bool) (saved : Option SavedState) : Engine :=
  { hasSensor := hasSensor
    sensorEnabled := false
    sensorRate := none
    sensorQueue := 0
    animating := false
    hasContext := false
    width := 0
    height := 0
    state := saved.getD ⟨0, 0, 0⟩ }

/-- Sample host state: window available, no saved blob, destroy not
requested. -/
def app0 : App := ⟨true, none, 0, false⟩

/-- Sample fresh engine with a sensor descriptor present. -/
def engine0 : Engine := initEngine true none

/-- Sample engine with a sensor descriptor and `animating` set. -/
def engineT : Engine := { engine0 with animating := true }

/-- Engine whose `animating` flag is set and whose snapshot angle is
`a`, used to observe the animation arithmetic of the loop. -/
def animEngine (a : ℚ) : Engine :=
  { engineT with state := { engineT.state with angle := a } }

/-- Run of `n` outer loop iterations in which no event source becomes
ready (every poll immediately returns a negative value), starting from
an animating engine with snapshot angle `a`: exactly `n` animated
frames. -/
def animRun (n : Nat) (a : ℚ) : RunResult :=
  run (List.replicate n []) app0 (animEngine a)

theorem drainQueue_spec (n : Nat) :
    drainQueue n = (0, List.replicate n (Tr.getEv 1) ++ [Tr.getEv 0]) := by
  induction n with
  | zero => rfl
  | succ n ih => simp [drainQueue, ih, List.replicate_succ]

theorem advanceAngle_iter (n : Nat) :
    ∀ a : ℚ, 0 ≤ a → a + n / 100 ≤ 1 → advanceAngle^[n] a = a + n / 100 := by
  induction n with
  | zero =>
      intro a h0 h1
      simp
  | succ n ih =>
      intro a h0 h1
      have hn : (0 : ℚ) ≤ (n : ℚ) := Nat.cast_nonneg n
      push_cast at h1
      have h2 : a + 1 / 100 ≤ 1 := by linarith
      rw [Function.iterate_succ_apply]
      have hadv : advanceAngle a = a + 1 / 100 := by
        unfold advanceAngle
        rw [if_neg (not_lt.mpr h2)]
      rw [hadv, ih (a + 1 / 100) (by linarith) (by linarith)]
      push_cast
      ring

theorem run_cons_empty (app : App) (e : Engine) (h : e.animating = true)
    (rest : List (List Ev)) :
    (run ([] :: rest) app e).engine =
      (run rest app
        { e with state := { e.state with angle := advanceAngle e.state.angle } }
      ).engine := by
  simp [run, innerLoop, animStep, h]

theorem run_empty_angle (n : Nat) :
    ∀ (app : App) (e : Engine), e.animating = true →
      (run (List.replicate n []) app e).engine.state.angle =
        advanceAngle^[n] e.state.angle := by
  induction n with
  | zero =>
      intro app e h
      rfl
  | succ n ih =>
      intro app e h
      rw [List.replicate_succ, run_cons_empty app e h,
        ih app { e with state := { e.state with angle := advanceAngle e.state.angle } } h,
        Function.iterate_succ_apply]

theorem innerLoop_destroyed (evs : List Ev) :
    ∀ (app : App) (e : Engine), (innerLoop evs app e).destroyed = true →
      (∃ pre, (innerLoop evs app e).trace = pre ++ [Tr.term]) ∧
        (innerLoop evs app e).engine.hasContext = false := by
  induction evs with
  | nil =>
      intro app e h
      simp [innerLoop] at h
  | cons ev rest ih =>
      intro app e h
      cases hd : (processEv app e ev).app.destroyRequested with
      | true =>
          refine ⟨⟨Tr.pollEv e.animating (loopTimeout e) :: (processEv app e ev).calls, ?_⟩, ?_⟩
          · simp [innerLoop, hd]
          · simp [innerLoop, hd, term_display]
      | false =>
          have hdes : (innerLoop rest (processEv app e ev).app
              (processEv app e ev).engine).destroyed = true := by
            simpa [innerLoop, hd] using h
          obtain ⟨⟨pre, hpre⟩, hctx⟩ := ih (processEv app e ev).app (processEv app e ev).engine hdes
          refine ⟨⟨Tr.pollEv e.animating (loopTimeout e) :: (processEv app e ev).calls ++ pre, ?_⟩, ?_⟩
          · simp [innerLoop, hd, hpre]
          · simpa [innerLoop, hd] using hctx

theorem run_destroyed (sched : List (List Ev)) :
    ∀ (app : App) (e : Engine), (run sched app e).destroyed = true →
      (∃ pre, (run sched app e).trace = pre ++ [Tr.term]) ∧
        (run sched app e).engine.hasContext = false := by
  induction sched with
  | nil =>
      intro app e h
      simp [run] at h
  | cons evs rest ih =>
      intro app e h
      cases hd : (innerLoop evs app e).destroyed with
      | true =>
          have h1 := innerLoop_destroyed evs app e hd
          obtain ⟨⟨pre, hpre⟩, hctx⟩ := h1
          refine ⟨⟨pre, ?_⟩, ?_⟩
          · simpa [run, hd] using hpre
          · simpa [run, hd] using hctx
      | false =>
          have hdes : (run rest (innerLoop evs app e).app
              (animStep (innerLoop evs app e).engine).1).destroyed = true := by
            simpa [run, hd] using h
          obtain ⟨⟨pre, hpre⟩, hctx⟩ := ih (innerLoop evs app e).app
            (animStep (innerLoop evs app e).engine).1 hdes
          refine ⟨⟨(innerLoop evs app e).trace ++ (animStep (innerLoop evs app e).engine).2 ++ pre, ?_⟩, ?_⟩
          · simp [run, hd, hpre]
          · simpa [run, hd] using hctx

theorem processEv_not_poll (app : App) (e : Engine) (ev : Ev) (a : Bool) (t : Int) :
    Tr.pollEv a t ∉ (processEv app e ev).calls := by
  cases ev with
  | cmdEv c ok =>
      cases c <;> simp [processEv, engine_handle_cmd] <;> split_ifs <;> simp
  | inputEv => simp [processEv]
  | sensorEv n =>
      cases hs : e.hasSensor with
      | true =>
          simp [processEv, hs, drainQueue_spec, List.mem_append, List.mem_replicate]
      | false => simp [processEv, hs]

theorem animStep_not_poll (e : Engine) (a : Bool) (t : Int) :
    Tr.pollEv a t ∉ (animStep e).2 := by
  cases he : e.animating <;> simp [animStep, he]

theorem innerLoop_poll (evs : List Ev) :
    ∀ (app : App) (e : Engine) (a : Bool) (t : Int),
      Tr.pollEv a t ∈ (innerLoop evs app e).trace →
        t = if a then 0 else -1 := by
  induction evs with
  | nil =>
      intro app e a t h
      simp [innerLoop] at h
      obtain ⟨ha, ht⟩ := h
      subst ha
      subst ht
      simp [loopTimeout]
  | cons ev rest ih =>
      intro app e a t h
      cases hd : (processEv app e ev).app.destroyRequested with
      | true =>
          simp [innerLoop, hd] at h
          rcases h with ⟨ha, ht⟩ | h
          · subst ha
            subst ht
            simp [loopTimeout]
          · exact absurd h (processEv_not_poll app e ev a t)
      | false =>
          simp [innerLoop, hd] at h
          rcases h with ⟨ha, ht⟩ | h | h
          · subst ha
            subst ht
            simp [loopTimeout]
          · exact absurd h (processEv_not_poll app e ev a t)
          · exact ih (processEv app e ev).app (processEv app e ev).engine a t h

/-- Claim C1, counterexample.  The claim says the immediate draw after
`init_display` on WindowReady is issued only when `init_display`
returns success.  In main.c lines 78-84 the return value of
`init_display` is ignored: with a window available and a failing init,
`draw_frame` is still called, and the engine is left with no active
rendering context at that draw. -/
theorem C1_counterexample :
    (engine_handle_cmd app0 engine0 Cmd.initWindow false).calls =
      [Tr.initD false, Tr.draw] ∧
    (engine_handle_cmd app0 engine0 Cmd.initWindow false).engine.hasContext =
      false := by
  exact ⟨rfl, rfl⟩

/-- Claim C1, amended.  On WindowReady, `init_display` is invoked only
if a window handle is available, and exactly one immediate draw is
issued unconditionally after it, regardless of whether `init_display`
succeeded; when no window handle is available neither call is made and
nothing changes. -/
theorem C1_amended (app : App) (e : Engine) (ok : Bool) :
    (app.window = true →
      engine_handle_cmd app e Cmd.initWindow ok =
        ⟨app, init_display e ok, [Tr.initD ok, Tr.draw]⟩) ∧
    (app.window = false →
      engine_handle_cmd app e Cmd.initWindow ok = ⟨app, e, []⟩) := by
  constructor <;> intro h <;> simp [engine_handle_cmd, h]

/-- Claim C1, witness: the amended theorem applied at a concrete
window-available state with a successful init. -/
theorem C1_witness :
    engine_handle_cmd app0 engine0 Cmd.initWindow true =
      ⟨app0, init_display engine0 true, [Tr.initD true, Tr.draw]⟩ :=
  (C1_amended app0 engine0 true).1 rfl

/-- Claim C2, counterexample.  The claim says the event rate passed on
FocusGained is exactly 16667 microseconds; the code (main.c line 96)
passes `(1000L/60)*1000`, which is 16000 by C integer division, not
16667. -/
theorem C2_counterexample :
    (engine_handle_cmd app0 engine0 Cmd.gainedFocus true).engine.sensorRate =
      some 16000 ∧ (16000 : Int) ≠ 16667 := by
  exact ⟨rfl, by decide⟩

/-- Claim C2, amended.  On every FocusGained command with a sensor
descriptor present, the event rate passed to the sensor queue is
`eventRate = (1000/60)*1000 = 16000` microseconds (62.5 samples per
second, the truncating-division rendering of the intended 1/60 s). -/
theorem C2_amended (app : App) (e : Engine) (ok : Bool)
    (h : e.hasSensor = true) :
    (engine_handle_cmd app e Cmd.gainedFocus ok).engine.sensorRate =
      some eventRate ∧ eventRate = 16000 := by
  exact ⟨by simp [engine_handle_cmd, h], by decide⟩

/-- Claim C2, witness: the amended theorem at a concrete engine with a
sensor descriptor. -/
theorem C2_witness :
    (engine_handle_cmd app0 engine0 Cmd.gainedFocus true).engine.sensorRate =
      some eventRate ∧ eventRate = 16000 :=
  C2_amended app0 engine0 true rfl

/-- Claim C3, counterexample.  The claim says that after `n` animated
frames the angle equals `(initial + 0.01*n) mod 1` within
floating-point tolerance.  Starting at `0.995` (in `[0,1)`), one
animated frame of the loop leaves the angle at `0` (lines 182-185 reset
the angle to `0` once it exceeds `1`), while the claimed formula gives
`fract(0.995 + 0.01) = 0.005`; the discrepancy is exactly `1/200`,
orders of magnitude beyond binary32 rounding error (about `1.2e-7` at
this magnitude), so no floating-point tolerance covers it. -/
theorem C3_counterexample :
    (animRun 1 (199 / 200)).engine.state.angle = 0 ∧
    Int.fract ((199 / 200 : ℚ) + 1 / 100) = 1 / 200 ∧
    |(animRun 1 (199 / 200)).engine.state.angle -
        Int.fract ((199 / 200 : ℚ) + 1 / 100)| = 1 / 200 := by
  have h1 : (animRun 1 (199 / 200)).engine.state.angle = 0 := by
    simp [animRun, run, innerLoop, animStep, advanceAngle, animEngine,
      engineT, engine0, initEngine, app0, loopTimeout, List.replicate]
    norm_num
  have h2 : Int.fract ((199 / 200 : ℚ) + 1 / 100) = 1 / 200 := by
    norm_num [Int.fract]
  refine ⟨h1, h2, ?_⟩
  rw [h1, h2]
  norm_num

/-- Claim C3, amended.  Each animated frame applies the update of
main.c lines 182-185 (add `0.01`; reset to `0` once the result exceeds
`1`), and the claimed law `angle = (initial + 0.01*n) mod 1` holds
exactly (in the exact-rational model of the `float` arithmetic) as long
as no wrap has occurred, i.e. when `initial + 0.01*n < 1`; at and past
the wrap the code resets to `0` instead of taking the remainder. -/
theorem C3_amended (a : ℚ) (n : Nat) (h0 : 0 ≤ a) (h1 : a + n / 100 < 1) :
    (animRun n a).engine.state.angle = Int.fract (a + n / 100) := by
  have he : (animEngine a).animating = true := rfl
  have hangle : (animEngine a).state.angle = a := rfl
  have h2 := run_empty_angle n app0 (animEngine a) he
  rw [animRun, h2, hangle, advanceAngle_iter n a h0 (le_of_lt h1),
    Int.fract_eq_self.mpr ⟨add_nonneg h0 (by positivity), h1⟩]

/-- Claim C3, witness: three animated frames from angle `0` give
`fract(0 + 3/100) = 3/100`. -/
theorem C3_witness :
    (animRun 3 0).engine.state.angle =
      Int.fract ((0 : ℚ) + ((3 : ℕ) : ℚ) / 100) :=
  C3_amended 0 3 (by norm_num) (by norm_num)

/-- Claim C4, counterexample.  The claim says the destroy check happens
only after all currently-ready event sources are drained.  In main.c
line 174 the check runs after each processed source: with a destroy
command and a FocusLost command both ready in the same cycle, the loop
exits right after the destroy command, never processing the FocusLost
source — `animating` stays `true` and the draw that FocusLost always
issues never appears in the trace, contradicting the claimed
drain-then-check order. -/
theorem C4_counterexample :
    (run [[Ev.cmdEv Cmd.destroy true, Ev.cmdEv Cmd.lostFocus true]]
        app0 engineT).destroyed = true ∧
    (run [[Ev.cmdEv Cmd.destroy true, Ev.cmdEv Cmd.lostFocus true]]
        app0 engineT).engine.animating = true ∧
    Tr.draw ∉ (run [[Ev.cmdEv Cmd.destroy true, Ev.cmdEv Cmd.lostFocus true]]
        app0 engineT).trace := by
  exact ⟨rfl, rfl, by decide⟩

/-- Claim C4, amended.  The destroy-requested flag is checked after
each processed event source (so sources still ready in the same cycle
may never be drained); once it is observed true the loop performs
exactly one `term_display` call and exits at once: the run's trace ends
with that `term_display`, with no further polling, drawing, or sensor
draining afterwards (in particular no animation draw of that cycle),
and the context handle is left cleared. -/
theorem C4_amended (sched : List (List Ev)) (app : App) (e : Engine)
    (h : (run sched app e).destroyed = true) :
    ∃ pre, (run sched app e).trace = pre ++ [Tr.term] ∧
      (run sched app e).engine.hasContext = false := by
  obtain ⟨⟨pre, hpre⟩, hctx⟩ := run_destroyed sched app e h
  exact ⟨pre, hpre, hctx⟩

/-- Claim C4, witness: the amended theorem at a concrete destroying
schedule. -/
theorem C4_witness :
    ∃ pre, (run [[Ev.cmdEv Cmd.destroy true]] app0 engine0).trace =
        pre ++ [Tr.term] ∧
      (run [[Ev.cmdEv Cmd.destroy true]] app0 engine0).engine.hasContext =
        false :=
  C4_amended [[Ev.cmdEv Cmd.destroy true]] app0 engine0 rfl

/-- Claim C5, confirmed.  On every FocusLost command (main.c lines
99-109): the sensor is disabled when a sensor descriptor is present
(and the enable state is untouched otherwise), `animating` is forced to
`false` regardless of its prior value and of whether a sensor exists,
exactly one draw is issued (so the final frame is drawn with the
stopped state), and the host state is unchanged. -/
theorem C5_focus_lost (app : App) (e : Engine) (ok : Bool) :
    (engine_handle_cmd app e Cmd.lostFocus ok).engine.animating = false ∧
    (engine_handle_cmd app e Cmd.lostFocus ok).engine.sensorEnabled =
      (if e.hasSensor then false else e.sensorEnabled) ∧
    (engine_handle_cmd app e Cmd.lostFocus ok).calls = [Tr.draw] ∧
    (engine_handle_cmd app e Cmd.lostFocus ok).app = app := by
  cases hs : e.hasSensor <;> simp [engine_handle_cmd, hs]

/-- Claim C6, confirmed.  FocusGained (main.c lines 89-98) enables the
sensor exactly when a sensor descriptor is present (recording the event
rate); with no descriptor it is a complete no-op (host state, engine
and call trace all unchanged, no error path exists), and in every case
the `animating` flag is not altered. -/
theorem C6_focus_gained (app : App) (e : Engine) (ok : Bool) :
    (engine_handle_cmd app e Cmd.gainedFocus ok).engine.animating =
      e.animating ∧
    (engine_handle_cmd app e Cmd.gainedFocus ok).app = app ∧
    (engine_handle_cmd app e Cmd.gainedFocus ok).calls = [] ∧
    (if e.hasSensor then
        (engine_handle_cmd app e Cmd.gainedFocus ok).engine =
          { e with sensorEnabled := true, sensorRate := some eventRate }
      else
        engine_handle_cmd app e Cmd.gainedFocus ok = ⟨app, e, []⟩) := by
  cases hs : e.hasSensor <;> simp [engine_handle_cmd, hs]

/-- Claim C7, confirmed.  SaveState (main.c lines 72-77) copies the
whole current Snapshot into the host buffer in one struct assignment
(no partial write is representable) and records exactly
`sizeof(struct saved_state)`; it changes neither the engine (so no
window or focus state) nor the host window flag, and makes no external
calls.  Restoring the saved blob at Engine construction (main.c lines
139-142) yields a Snapshot equal field for field to the one saved, and
with no prior snapshot the Snapshot starts zeroed. -/
theorem C7_snapshot_roundtrip (app : App) (e : Engine) (hs : Bool) :
    (engine_handle_cmd app e Cmd.saveState true).app.savedState =
      some e.state ∧
    (engine_handle_cmd app e Cmd.saveState true).app.savedStateSize =
      savedStateSizeof ∧
    (engine_handle_cmd app e Cmd.saveState true).app.window = app.window ∧
    (engine_handle_cmd app e Cmd.saveState true).engine = e ∧
    (engine_handle_cmd app e Cmd.saveState true).calls = [] ∧
    (initEngine hs
        ((engine_handle_cmd app e Cmd.saveState true).app.savedState)).state =
      e.state ∧
    (initEngine hs none).state = ⟨0, 0, 0⟩ := by
  simp [engine_handle_cmd, initEngine]

/-- Claim C8, confirmed.  On a poll iteration that reports the sensor
queue ready while a sensor descriptor exists (main.c lines 163-171),
the drain loop fetches one event per `getEvents` call until a call
returns zero: the queue is left fully drained and the trace is one
single-event fetch per queued event followed by the final empty
fetch. -/
theorem C8_sensor_drain (app : App) (e : Engine) (n : Nat)
    (h : e.hasSensor = true) :
    processEv app e (Ev.sensorEv n) =
      ⟨app, { e with sensorQueue := 0 },
        List.replicate (e.sensorQueue + n) (Tr.getEv 1) ++ [Tr.getEv 0]⟩ := by
  simp [processEv, h, drainQueue_spec]

/-- Claim C8, witness: draining two queued events on a fresh engine. -/
theorem C8_witness :
    processEv app0 engine0 (Ev.sensorEv 2) =
      ⟨app0, { engine0 with sensorQueue := 0 },
        List.replicate (engine0.sensorQueue + 2) (Tr.getEv 1) ++ [Tr.getEv 0]⟩ :=
  C8_sensor_drain app0 engine0 2 rfl

/-- Claim C9, confirmed.  In every iteration of the scheduler loop, the
`ALooper_pollAll` call (main.c line 155) receives timeout `0`
(non-blocking) exactly when `animating` is true at that poll, and `-1`
(block indefinitely) when it is false: every poll event of any run's
trace obeys this. -/
theorem C9_poll_timeout (sched : List (List Ev)) :
    ∀ (app : App) (e : Engine) (a : Bool) (t : Int),
      Tr.pollEv a t ∈ (run sched app e).trace →
        t = if a then 0 else -1 := by
  induction sched with
  | nil =>
      intro app e a t h
      simp [run] at h
  | cons evs rest ih =>
      intro app e a t h
      cases hd : (innerLoop evs app e).destroyed with
      | true =>
          rw [show run (evs :: rest) app e = innerLoop evs app e by
            simp [run, hd]] at h
          exact innerLoop_poll evs app e a t h
      | false =>
          simp [run, hd] at h
          rcases h with h | h | h
          · exact innerLoop_poll evs app e a t h
          · exact absurd h (animStep_not_poll (innerLoop evs app e).engine a t)
          · exact ih (innerLoop evs app e).app
              (animStep (innerLoop evs app e).engine).1 a t h

/-- Claim C9, witness: the theorem applied to a one-iteration run of an
animating engine, whose single poll is non-blocking. -/
theorem C9_witness : (0 : Int) = if true then 0 else -1 :=
  C9_poll_timeout [[]] app0 engineT true 0 (by decide)

/-- Claim C10, confirmed.  If a WindowReady command arrives while the
application's window handle is null (main.c lines 78-84), the
dispatcher does nothing: `init_display` is not called, no draw is
issued, and host state and every engine field are unchanged. -/
theorem C10_no_window_noop (app : App) (e : Engine) (ok : Bool)
    (h : app.window = false) :
    engine_handle_cmd app e Cmd.initWindow ok = ⟨app, e, []⟩ := by
  simp [engine_handle_cmd, h]

/-- Claim C10, witness: the theorem at a concrete windowless host
state. -/
theorem C10_witness :
    engine_handle_cmd { app0 with window := false } engine0
        Cmd.initWindow true =
      ⟨{ app0 with window := false }, engine0, []⟩ :=
  C10_no_window_noop { app0 with window := false } engine0 true rfl
